import Mathlib

/-!
Shallow embedding of `PatentAutomate/Image_Experiment/openai_exp_2_boundingboxes.py`.

The program is a pipeline over a patent figure: a vocabulary builder
(`extract_vocab_with_gpt`), a numeral locator (`ocr_numerals`), per-numeral
classification (`ask_vlm_for_name`), a confidence gate, and a final result
assembly (`run`).  External services (the OCR engine and the two GPT oracles)
are modelled as explicit inputs: the OCR detections as a list of token/box
records, the vocabulary oracle as the JSON parse of its reply, and the
per-numeral classifier as a function from the located hit to an outcome that
either raises or returns a reply whose JSON parse is given.

Machine integers are `Int` (pixel coordinates cannot overflow in CPython),
floats are `Rat`, Python exceptions are an explicit error type carried in
`Except`, and JSON values are the inductive `JVal`.  Python `str` operations
are modelled per character code point (ASCII ranges for `lower`, `\d` and
`[a-z]`); this matches CPython on the ASCII inputs the program manipulates.
-/

/-- Kinds of Python exception that the modelled code paths can raise. -/
inductive PyErr where
  | typeError
  | valueError
  | attributeError
  | oracleFailure
deriving DecidableEq, Repr

/-- JSON values, the shape `json.loads` produces: objects are insertion-ordered
association lists with distinct keys, numbers are rationals. -/
inductive JVal where
  | jnull
  | jbool (b : Bool)
  | jnum (q : Rat)
  | jstr (s : String)
  | jarr (xs : List JVal)
  | jobj (fields : List (String × JVal))

/-- Python whitespace characters stripped by `str.strip()` (ASCII subset). -/
def pyIsSpace (c : Char) : Bool :=
  c = ' ' || c = '\t' || c = '\n' || c = '\x0d' || c = '\x0b' || c = '\x0c'

/-- Model of Python `str.strip()`: drop leading and trailing whitespace. -/
def pyStrip (s : String) : String :=
  ⟨((s.data.dropWhile pyIsSpace).reverse.dropWhile pyIsSpace).reverse⟩

/-- Model of Python `str.lower()` on one character (ASCII range). -/
def pyCharLower (c : Char) : Char :=
  if h : 65 ≤ c.toNat ∧ c.toNat ≤ 90 then
    Char.ofNatAux (c.toNat + 32) (Or.inl (by omega))
  else c

/-- Model of Python `str.lower()` (applied per character). -/
def pyLower (s : String) : String := ⟨s.data.map pyCharLower⟩

/-- `true` when the string contains no ASCII uppercase letter; this is how
"the entry is lowercase" is read below. -/
def pyNoUpper (s : String) : Bool :=
  s.data.all (fun c => !(65 ≤ c.toNat && c.toNat ≤ 90))

/-- Code-point lexicographic strict order on character lists, the order Python
uses to compare `str` values. -/
def charListLt : List Char → List Char → Bool
  | _, [] => false
  | [], _ :: _ => true
  | a :: as, b :: bs =>
    decide (a.toNat < b.toNat) || (decide (a.toNat = b.toNat) && charListLt as bs)

/-- Python's `<=` on strings (total order used by `sorted`). -/
def pyStrLe (a b : String) : Bool := !(charListLt b.data a.data)

/-- Model of Python `sorted` on strings.  `insertionSort` with a total order
computes the same list as Python's (stable) sort; stability can only matter on
duplicate elements and every call below sorts a deduplicated list. -/
def pySortStrs (l : List String) : List String :=
  List.insertionSort (fun a b => pyStrLe a b = true) l

/-- Numeric value of a list of ASCII digits. -/
def digitsVal (cs : List Char) : Nat :=
  cs.foldl (fun n c => 10 * n + (c.toNat - 48)) 0

/-- Model of Python `float(s)` on a string: optional sign, decimal digits with
an optional fractional part, surrounded by optional whitespace.  (Exponents,
`inf` and `nan` are not modelled; no claim depends on them.) -/
def pyFloatOfStr (s : String) : Option Rat :=
  let t := (pyStrip s).data
  let signAndMag : Rat × List Char :=
    match t with
    | '-' :: r => (-1, r)
    | '+' :: r => (1, r)
    | r => (1, r)
  let u := signAndMag.2
  let ip := u.takeWhile Char.isDigit
  let rest := u.dropWhile Char.isDigit
  match rest with
  | [] => if ip.isEmpty then none else some (signAndMag.1 * (digitsVal ip : Rat))
  | '.' :: fr =>
    if fr.all Char.isDigit && !(ip.isEmpty && fr.isEmpty) then
      some (signAndMag.1 * mkRat (digitsVal ip * 10 ^ fr.length + digitsVal fr) (10 ^ fr.length))
    else none
  | _ => none

/-- Model of Python `float(x)` on a JSON value (`float` of a bool is 0 or 1;
of a non-numeric string it raises `ValueError`; of null/list/dict it raises
`TypeError`). -/
def pyFloat : JVal → Except PyErr Rat
  | .jnum q => .ok q
  | .jbool b => .ok (if b then 1 else 0)
  | .jstr s =>
    match pyFloatOfStr s with
    | some q => .ok q
    | none => .error .valueError
  | _ => .error .typeError

/-- `d[k]` lookup on a JSON object with default (Python `dict.get(k, d)`). -/
def objGet : List (String × JVal) → String → JVal → JVal
  | [], _, d => d
  | (k, v) :: fs, key, d => if k = key then v else objGet fs key d

/-- `d[k] = x` on a JSON object: overwrite in place if the key exists
(keeping its position, as CPython dicts do), else append. -/
def objSet : List (String × JVal) → String → JVal → List (String × JVal)
  | [], key, x => [(key, x)]
  | (k, v) :: fs, key, x =>
    if k = key then (key, x) :: fs else (k, v) :: objSet fs key x

/-- Field access through a `JVal` that is expected to be an object. -/
def jGet (v : JVal) (key : String) (d : JVal) : JVal :=
  match v with
  | .jobj fs => objGet fs key d
  | _ => d

/-- Source `clamp(x1,y1,x2,y2,W,H)`: returns the Python list
`[max(0,x1), max(0,y1), min(W,x2), min(H,y2)]`. -/
def clamp (x1 y1 x2 y2 W H : Int) : List Int :=
  [max 0 x1, max 0 y1, min W x2, min H y2]

/-- A bounding box `[x1,y1,x2,y2]`; structured view of the list `clamp`
returns, used where the source passes boxes around. -/
structure Box where
  x1 : Int
  y1 : Int
  x2 : Int
  y2 : Int
deriving DecidableEq, Repr

/-- `clamp` producing the structured box (same four components). -/
def clampBox (x1 y1 x2 y2 W H : Int) : Box :=
  ⟨max 0 x1, max 0 y1, min W x2, min H y2⟩

/-- Source `area(b)` from `ocr_numerals`: `max(0,x2-x1) * max(0,y2-y1)`. -/
def area (b : Box) : Int := max 0 (b.x2 - b.x1) * max 0 (b.y2 - b.y1)

/-- One OCR engine detection: a token and its `left/top/width/height` box,
one row of `pytesseract.image_to_data`. -/
structure Det where
  text : String
  left : Int
  top : Int
  width : Int
  height : Int
deriving DecidableEq, Repr

/-- Source dataclass `Hit`: a numeral identifier and its box. -/
structure Hit where
  id : String
  box : Box
deriving DecidableEq, Repr

/-- Source `CONFUSIONS` table. -/
def CONFUSIONS : List (String × String) :=
  [("S", "5"), ("s", "5"), ("O", "0"), ("o", "0"), ("I", "1"), ("l", "1"), ("L", "1")]

/-- Source `correct_confusion(tok)`. -/
def correct_confusion (tok : String) : String :=
  match CONFUSIONS.find? (fun p => p.1 = tok) with
  | some p => p.2
  | none => if tok = "36" then "3c" else tok

/-- Source regex `^\d+[a-z]?$` with `re.IGNORECASE`: one or more digits then
at most one letter (ASCII model of `\d` and of the ignore-case `[a-z]`). -/
def NUMERAL_RE (s : String) : Bool :=
  let ds := s.data.takeWhile Char.isDigit
  let rest := s.data.dropWhile Char.isDigit
  !ds.isEmpty &&
    (match rest with
     | [] => true
     | [c] => c.isAlpha
     | _ => false)

/-- The token filtering loop of `ocr_numerals` (before deduplication): strip,
drop empties, confusion-correct short tokens, keep regex matches, clamp the
box to the image, lowercase the identifier. -/
def rawHits (W H : Int) (dets : List Det) : List Hit :=
  dets.filterMap (fun d =>
    let tok0 := pyStrip d.text
    if tok0 = "" then none
    else
      let tok := if tok0.length ≤ 2 then correct_confusion tok0 else tok0
      if NUMERAL_RE tok then
        some { id := pyLower tok
               box := clampBox d.left d.top (d.left + d.width) (d.top + d.height) W H }
      else none)

/-- One step of the `best` dict update in `ocr_numerals`: if the id is absent,
append the hit; otherwise replace the stored hit in place exactly when the new
box has strictly larger area. -/
def updateBest (h : Hit) : List Hit → List Hit
  | [] => [h]
  | b :: bs =>
    if b.id = h.id then
      (if area b.box < area h.box then h else b) :: bs
    else b :: updateBest h bs

/-- The deduplication loop of `ocr_numerals` (`best: Dict[str, Hit]` built in
input order, then `list(best.values())`). -/
def dedupHits (hits : List Hit) : List Hit :=
  hits.foldl (fun best h => updateBest h best) []

/-- Source `ocr_numerals`, from the OCR engine's detections onward (the image
preprocessing and the OCR engine itself are the external input `dets`). -/
def ocr_numerals (W H : Int) (dets : List Det) : List Hit :=
  dedupHits (rawHits W H dets)

/-- Source fallback vocabulary returned when no claims text is provided. -/
def FALLBACK_EMPTY : List String :=
  ["semiconductor component", "main body", "terminal", "signal terminal", "ground terminal",
   "unused terminal", "circuit board", "wiring pattern", "first trace", "second trace",
   "third land", "first land", "second land", "connecting trace", "connecting member",
   "insulating film", "resist film", "silk film", "metallic body", "thermal via",
   "heat-radiating member"]

/-- Source fallback vocabulary returned when parsing the oracle reply fails. -/
def FALLBACK_PARSE : List String :=
  ["terminal", "signal terminal", "ground terminal", "unused terminal",
   "wiring pattern", "first land", "second land", "third land", "trace", "die pad",
   "insulating film", "thermal via", "heat-radiating member", "main body", "circuit board"]

/-- `data.get("vocabulary", [])`: succeeds only on a dict (anything else
raises `AttributeError`, caught by the surrounding `except`). -/
def getVocabValue : JVal → Except PyErr JVal
  | .jobj fs => .ok (objGet fs "vocabulary" (.jarr []))
  | _ => .error .attributeError

/-- Iterating `for s in v` where every element must support `.strip()`:
a list must consist of strings, iterating a string yields its one-character
strings, iterating a dict yields its keys; other values raise. -/
def jstrList : List JVal → Except PyErr (List String)
  | [] => .ok []
  | .jstr s :: rest =>
    match jstrList rest with
    | .ok ss => .ok (s :: ss)
    | .error e => .error e
  | _ :: _ => .error .attributeError

/-- See `jstrList`. -/
def pyIterStrs : JVal → Except PyErr (List String)
  | .jarr xs => jstrList xs
  | .jstr s => .ok (s.data.map (fun c => String.mk [c]))
  | .jobj fs => .ok (fs.map (fun p => p.1))
  | _ => .error .typeError

/-- The comprehension filter `1 <= len(s.strip()) <= 64`. -/
def vocabKeep (s : String) : Bool :=
  1 ≤ (pyStrip s).length && (pyStrip s).length ≤ 64

/-- `dict.fromkeys` deduplication, with the keys already emitted carried as an
accumulator: keep the first occurrence of each value. -/
def pyDedupAux (seen : List String) : List String → List String
  | [] => []
  | a :: l => if a ∈ seen then pyDedupAux seen l else a :: pyDedupAux (a :: seen) l

/-- `list(dict.fromkeys(vocab))`: deduplicate keeping first occurrences. -/
def pyDedup (l : List String) : List String := pyDedupAux [] l

/-- Source `extract_vocab_with_gpt(claims_text)`.  The external oracle call is
abstracted by `parsed`, the JSON parse of its reply (`none` when `json.loads`
raises).  Every failure inside the `try` block falls back to
`FALLBACK_PARSE`; the builder itself never raises. -/
def extract_vocab_with_gpt (claims_text : String) (parsed : Option JVal) : List String :=
  if pyStrip claims_text = "" then FALLBACK_EMPTY
  else
    match parsed with
    | none => FALLBACK_PARSE
    | some data =>
      match getVocabValue data with
      | .error _ => FALLBACK_PARSE
      | .ok v =>
        match pyIterStrs v with
        | .error _ => FALLBACK_PARSE
        | .ok ss =>
          let kept := (ss.filter vocabKeep).map (fun s => pyLower (pyStrip s))
          (pySortStrs (pyDedup kept)).take 60

/-- Outcome of one call to the vision oracle for one numeral: the API call
itself raises (timeout, network failure), or it returns text whose JSON parse
is `parsed` (`.error` when `json.loads` raises). -/
inductive OracleOutcome where
  | raises
  | returns (parsed : Except Unit JVal)

/-- Source `ask_vlm_for_name`, from the oracle call onward (prompt assembly
and crop encoding are pure data plumbing subsumed in the oracle outcome).
Only a `json.loads` failure is caught; an exception from the API call itself
propagates to the caller. -/
def ask_vlm_for_name (num_id : String) (o : OracleOutcome) : Except PyErr JVal :=
  match o with
  | .raises => .error .oracleFailure
  | .returns (.error _) =>
    .ok (.jobj [("id", .jstr num_id), ("name", .jstr "unknown"),
                ("confidence", .jnum 0), ("evidence", .jstr "parse_error")])
  | .returns (.ok v) => .ok v

/-- The box as the Python list attached under `"bbox_xyxy"`. -/
def boxJ (b : Box) : JVal :=
  .jarr [.jnum b.x1, .jnum b.y1, .jnum b.x2, .jnum b.y2]

/-- The body of the per-numeral loop in `run`: call the oracle, attach the
hit's box (`ans["bbox_xyxy"] = h.box`, a `TypeError` if the reply was not an
object), then gate: `if float(ans.get("confidence", 0.0)) < conf_thresh:
ans["name"] = "unknown"`. -/
def processHit (conf_thresh : Rat) (oracle : Hit → OracleOutcome) (h : Hit) :
    Except PyErr JVal :=
  match ask_vlm_for_name h.id (oracle h) with
  | .error e => .error e
  | .ok ans =>
    match ans with
    | .jobj fs =>
      let fs1 := objSet fs "bbox_xyxy" (boxJ h.box)
      match pyFloat (objGet fs1 "confidence" (.jnum 0)) with
      | .error e => .error e
      | .ok c =>
        .ok (.jobj (if c < conf_thresh then objSet fs1 "name" (.jstr "unknown") else fs1))
    | _ => .error .typeError

/-- The final JSON document `run` writes, with optional fields explicit:
`none` models a key that is absent from the document. -/
structure ResultSet where
  figure_id : String
  components : List JVal
  vocab_used : Option (List String)
  note : Option String

/-- Model of `os.path.basename` on POSIX paths: everything after the last
separator. -/
def pyBasename (p : String) : String :=
  ⟨(p.data.reverse.takeWhile (fun c => c ≠ '/')).reverse⟩

/-- The per-numeral `for` loop with an exception aborting the whole loop
(and hence the run), in list order. -/
def mapExcept (f : Hit → Except PyErr JVal) : List Hit → Except PyErr (List JVal)
  | [] => .ok []
  | h :: hs =>
    match f h with
    | .error e => .error e
    | .ok v =>
      match mapExcept f hs with
      | .error e => .error e
      | .ok vs => .ok (v :: vs)

/-- The order the loop visits hits: `sorted(hits, key=lambda z: z.id)`,
Python's lexicographic string order.  The located hits have pairwise distinct
identifiers, so the stable sort equals any sort by this total order. -/
def sortHits (hits : List Hit) : List Hit :=
  List.insertionSort (fun a b => pyStrLe a.id b.id = true) hits

/-- Source `run(image_path, claims_path, out_path, conf_thresh)`.  External
inputs: `claims_text` the text read from the claims file, `vocabParsed` the
vocabulary oracle's parsed reply, `W H dets` the image size and the OCR
engine's detections, `oracle` the per-numeral vision oracle.  The returned
value is the JSON document written to the output file; `.error` means an
uncaught exception aborted the run with nothing written. -/
def run (image_path : String) (claims_text : String) (vocabParsed : Option JVal)
    (W H : Int) (dets : List Det) (conf_thresh : Rat)
    (oracle : Hit → OracleOutcome) : Except PyErr ResultSet :=
  let vocab := extract_vocab_with_gpt claims_text vocabParsed
  let hits := ocr_numerals W H dets
  if hits.isEmpty then
    .ok { figure_id := pyBasename image_path, components := []
          vocab_used := none, note := some "no_numerals_found" }
  else
    match mapExcept (processHit conf_thresh oracle) (sortHits hits) with
    | .error e => .error e
    | .ok comps =>
      .ok { figure_id := pyBasename image_path, components := comps
            vocab_used := some vocab, note := none }

/-- Modelled from the spec: the sort key the spec prescribes for record order,
"ascending by numeral identifier (numeric value, then suffix letter)". -/
def specNumeralKey (s : String) : Nat × String :=
  (digitsVal (s.data.takeWhile Char.isDigit), ⟨s.data.dropWhile Char.isDigit⟩)

/-- Modelled from the spec: `a` precedes-or-equals `b` in the spec's record
order (numeric value, ties by suffix). -/
def specKeyLe (a b : String) : Bool :=
  let ka := specNumeralKey a
  let kb := specNumeralKey b
  decide (ka.1 < kb.1) || (decide (ka.1 = kb.1) && pyStrLe ka.2 kb.2)

/-- Modelled from the spec: the list is ascending under `specKeyLe`. -/
def specAscending : List String → Bool
  | [] => true
  | [_] => true
  | a :: b :: r => specKeyLe a b && specAscending (b :: r)

/-- Modelled from the spec: the property claimed of `clamp`'s output list,
`0 ≤ x1 ≤ x2 ≤ W` and `0 ≤ y1 ≤ y2 ≤ H`. -/
def specClampOK (out : List Int) (W H : Int) : Prop :=
  match out with
  | [a, b, c, d] => 0 ≤ a ∧ a ≤ c ∧ c ≤ W ∧ 0 ≤ b ∧ b ≤ d ∧ d ≤ H
  | _ => False

instance (out : List Int) (W H : Int) : Decidable (specClampOK out W H) := by
  unfold specClampOK
  split
  · exact inferInstance
  · exact inferInstance

/-- Invariant of the deduplication loop: `best` holds one hit per identifier
seen in `processed`; each held hit has maximal area among the same-identifier
hits processed so far and is the first of the processed hits to attain that
area. -/
def DedupInv (processed best : List Hit) : Prop :=
  (best.map Hit.id).Nodup ∧
  (∀ g ∈ processed, ∃ b ∈ best, b.id = g.id) ∧
  ∀ b ∈ best,
    (∀ g ∈ processed, g.id = b.id → area g.box ≤ area b.box) ∧
    ∃ pre suf, processed = pre ++ b :: suf ∧
      ∀ g ∈ pre, g.id = b.id → area g.box < area b.box

/-- Oracle reply used for the confidence-gate witness: a vocabulary name with
confidence 3/10. -/
def c1fs : List (String × JVal) :=
  [("id", .jstr "7"), ("name", .jstr "die pad"),
   ("confidence", .jnum (mkRat 3 10)), ("evidence", .jstr "arrow into pad")]

/-- Oracle for the confidence-gate witness. -/
def c1oracle : Hit → OracleOutcome := fun _ => .returns (.ok (.jobj c1fs))

/-- Hit used by several witnesses. -/
def c1hit : Hit := ⟨"7", ⟨1, 2, 3, 4⟩⟩

/-- Oracle returning parseable JSON that violates the schema for numeral "1"
(`confidence` is JSON `null`) and a well-formed reply for every other
numeral. -/
def c2oracle : Hit → OracleOutcome := fun h =>
  if h.id = "1" then
    .returns (.ok (.jobj [("id", .jstr "1"), ("name", .jstr "terminal"),
      ("confidence", .jnull), ("evidence", .jstr "e")]))
  else
    .returns (.ok (.jobj [("id", .jstr h.id), ("name", .jstr "terminal"),
      ("confidence", .jnum (mkRat 9 10)), ("evidence", .jstr "e")]))

/-- Two clean numeral detections, "1" and "2". -/
def c2dets : List Det := [⟨"1", 0, 0, 5, 5⟩, ⟨"2", 10, 10, 5, 5⟩]

/-- Oracle whose reply text never parses as JSON. -/
def c2woracle : Hit → OracleOutcome := fun _ => .returns (.error ())

/-- Oracle proposing the name "widget", outside every vocabulary in play,
with high confidence. -/
def c3oracle : Hit → OracleOutcome := fun h =>
  .returns (.ok (.jobj [("id", .jstr h.id), ("name", .jstr "widget"),
    ("confidence", .jnum (mkRat 9 10)), ("evidence", .jstr "e")]))

/-- One numeral detection, "5". -/
def c3dets : List Det := [⟨"5", 20, 20, 6, 6⟩]

/-- The record `run` assembles for `c3dets` under `c3oracle`. -/
def c3rec : JVal :=
  .jobj [("id", .jstr "5"), ("name", .jstr "widget"),
    ("confidence", .jnum (mkRat 9 10)), ("evidence", .jstr "e"),
    ("bbox_xyxy", boxJ ⟨20, 20, 26, 26⟩)]

/-- Well-behaved oracle echoing the numeral id with a vocabulary name. -/
def c4oracle : Hit → OracleOutcome := fun h =>
  .returns (.ok (.jobj [("id", .jstr h.id), ("name", .jstr "terminal"),
    ("confidence", .jnum (mkRat 9 10)), ("evidence", .jstr "e")]))

/-- Detections for numerals "102" and "2". -/
def c4dets : List Det := [⟨"102", 10, 10, 8, 6⟩, ⟨"2", 40, 40, 5, 6⟩]

/-- Two boxes for the same identifier "12", with areas 50 and 120. -/
def c6dets : List Det := [⟨"12", 0, 0, 10, 5⟩, ⟨"12", 10, 10, 20, 6⟩]

/-- A vocabulary-oracle reply with mixed-case, padded and duplicate
phrases. -/
def c7parsed : Option JVal :=
  some (.jobj [("vocabulary",
    .jarr [.jstr "Die Pad", .jstr " WIDGET  ", .jstr "die pad"])])

/-- Oracle raising (timeout) on numeral "1" only. -/
def c8oracle : Hit → OracleOutcome := fun h =>
  if h.id = "1" then .raises
  else
    .returns (.ok (.jobj [("id", .jstr h.id), ("name", .jstr "terminal"),
      ("confidence", .jnum (mkRat 9 10)), ("evidence", .jstr "e")]))

/-- Oracle that always raises. -/
def c8woracle : Hit → OracleOutcome := fun _ => .raises

/-- A detection whose token "AB" is not a numeral: the locator finds no
hits. -/
def c9dets : List Det := [⟨"AB", 0, 0, 5, 5⟩]

/-- One clean numeral detection, "8". -/
def c10dets : List Det := [⟨"8", 0, 0, 4, 4⟩]

/-- One clean numeral detection, "3". -/
def c8wdets : List Det := [⟨"3", 0, 0, 4, 4⟩]

/-- Looking up the key just set returns the value set. -/
theorem objGet_objSet_self (fs : List (String × JVal)) (k : String) (x d : JVal) :
    objGet (objSet fs k x) k d = x := by
  induction fs with
  | nil => simp [objSet, objGet]
  | cons p fs ih =>
    obtain ⟨k1, v1⟩ := p
    by_cases h : k1 = k
    · simp [objSet, objGet, h]
    · simp [objSet, objGet, h, ih]

/-- Setting one key does not change lookups of another. -/
theorem objGet_objSet_ne (fs : List (String × JVal)) {k k2 : String} (x d : JVal)
    (hne : k ≠ k2) : objGet (objSet fs k x) k2 d = objGet fs k2 d := by
  induction fs with
  | nil => simp [objSet, objGet, hne]
  | cons p fs ih =>
    obtain ⟨k1, v1⟩ := p
    by_cases h : k1 = k
    · simp [objSet, objGet, h, hne]
    · simp [objSet, objGet, h, ih]

/-- `pyCharLower` never produces an ASCII uppercase letter. -/
theorem pyCharLower_no_upper (c : Char) :
    ¬(65 ≤ (pyCharLower c).toNat ∧ (pyCharLower c).toNat ≤ 90) := by
  unfold pyCharLower
  split
  · have : (Char.ofNatAux (c.toNat + 32) (Or.inl (by omega))).toNat = c.toNat + 32 := rfl
    rw [this]
    omega
  · assumption

/-- A string made of lowered characters has no ASCII uppercase letter. -/
theorem pyNoUpper_pyLower (s : String) : pyNoUpper (pyLower s) = true := by
  simp only [pyNoUpper, pyLower, List.all_map, List.all_eq_true]
  intro c _
  have := pyCharLower_no_upper c
  simp only [Function.comp_apply, Bool.not_eq_true']
  by_contra hcon
  simp only [Bool.not_eq_false, Bool.and_eq_true, decide_eq_true_eq] at hcon
  exact this hcon

/-- Lowering preserves string length. -/
theorem pyLower_length (s : String) : (pyLower s).length = s.length := by
  have h1 : (pyLower s).length = (s.data.map pyCharLower).length := rfl
  rw [h1, List.length_map]
  rfl

/-- `charListLt` is irreflexive-asymmetric: two lists cannot each be less
than the other. -/
theorem charListLt_asymm : ∀ x y : List Char,
    charListLt x y = true → charListLt y x = false := by
  intro x
  induction x with
  | nil => intro y _; cases y <;> simp [charListLt]
  | cons a as ih =>
    intro y hxy
    cases y with
    | nil => simp [charListLt] at hxy
    | cons b bs =>
      simp only [charListLt, Bool.or_eq_true, Bool.and_eq_true, decide_eq_true_eq] at hxy ⊢
      rcases hxy with h | ⟨heq, hrec⟩
      · simp only [Bool.or_eq_false_iff, Bool.and_eq_false_iff, decide_eq_false_iff_not]
        constructor
        · omega
        · left; omega
      · simp only [Bool.or_eq_false_iff, Bool.and_eq_false_iff, decide_eq_false_iff_not]
        constructor
        · omega
        · right; exact ih bs hrec

/-- If `x < z` then for any `y`, `x < y` or `y < z` (shift property of a
total strict order). -/
theorem charListLt_shift : ∀ x y z : List Char,
    charListLt x z = true → charListLt x y = true ∨ charListLt y z = true := by
  intro x
  induction x with
  | nil =>
    intro y z hxz
    cases z with
    | nil => simp [charListLt] at hxz
    | cons c cs =>
      cases y with
      | nil => right; simp [charListLt]
      | cons b bs => left; simp [charListLt]
  | cons a as ih =>
    intro y z hxz
    cases z with
    | nil => simp [charListLt] at hxz
    | cons c cs =>
      cases y with
      | nil => right; simp [charListLt]
      | cons b bs =>
        simp only [charListLt, Bool.or_eq_true, Bool.and_eq_true, decide_eq_true_eq] at hxz ⊢
        rcases hxz with hlt | ⟨heq, hrec⟩
        · by_cases hab : a.toNat < b.toNat
          · left; left; exact hab
          · right
            by_cases hbc : b.toNat < c.toNat
            · left; exact hbc
            · omega
        · by_cases hab : a.toNat < b.toNat
          · left; left; exact hab
          · by_cases hba : b.toNat < a.toNat
            · right; left; omega
            · have hab2 : a.toNat = b.toNat := by omega
              rcases ih bs cs hrec with h1 | h1
              · left; right; exact ⟨hab2, h1⟩
              · right; right; exact ⟨by omega, h1⟩

/-- Totality of Python's string order. -/
theorem pyStrLe_total (a b : String) : pyStrLe a b = true ∨ pyStrLe b a = true := by
  unfold pyStrLe
  by_cases h : charListLt b.data a.data = true
  · right
    simp [charListLt_asymm _ _ h]
  · left
    simp [Bool.not_eq_true] at h
    simp [h]

/-- Transitivity of Python's string order. -/
theorem pyStrLe_trans {a b c : String} (hab : pyStrLe a b = true)
    (hbc : pyStrLe b c = true) : pyStrLe a c = true := by
  unfold pyStrLe at hab hbc ⊢
  simp only [Bool.not_eq_true'] at hab hbc ⊢
  by_contra hca
  simp only [Bool.not_eq_false] at hca
  rcases charListLt_shift _ b.data _ hca with h | h
  · rw [h] at hbc; cases hbc
  · rw [h] at hab; cases hab

/-- Elements of the deduplicated list come from the input. -/
theorem pyDedupAux_subset : ∀ (l seen : List String) (x : String),
    x ∈ pyDedupAux seen l → x ∈ l := by
  intro l
  induction l with
  | nil => intro seen x hx; simp [pyDedupAux] at hx
  | cons a l ih =>
    intro seen x hx
    simp only [pyDedupAux] at hx
    split at hx
    · exact List.mem_cons_of_mem _ (ih seen x hx)
    · rcases List.mem_cons.mp hx with h | h
      · exact h ▸ List.mem_cons_self _ _
      · exact List.mem_cons_of_mem _ (ih _ x h)

/-- The deduplicated list avoids the accumulator. -/
theorem pyDedupAux_avoids : ∀ (l seen : List String) (x : String),
    x ∈ pyDedupAux seen l → x ∉ seen := by
  intro l
  induction l with
  | nil => intro seen x hx; simp [pyDedupAux] at hx
  | cons a l ih =>
    intro seen x hx
    simp only [pyDedupAux] at hx
    split at hx
    · exact ih seen x hx
    · rcases List.mem_cons.mp hx with h | h
      · subst h; assumption
      · intro hmem
        exact ih _ x h (List.mem_cons_of_mem _ hmem)

/-- The deduplicated list has no duplicates. -/
theorem pyDedupAux_nodup : ∀ (l seen : List String), (pyDedupAux seen l).Nodup := by
  intro l
  induction l with
  | nil => intro seen; simp [pyDedupAux]
  | cons a l ih =>
    intro seen
    simp only [pyDedupAux]
    split
    · exact ih seen
    · refine List.nodup_cons.mpr ⟨?_, ih (a :: seen)⟩
      intro hmem
      exact pyDedupAux_avoids l (a :: seen) a hmem (List.mem_cons_self _ _)

/-- `pyDedup` output: no duplicates. -/
theorem pyDedup_nodup (l : List String) : (pyDedup l).Nodup := pyDedupAux_nodup l []

/-- `pyDedup` output: a subset of the input. -/
theorem pyDedup_subset (l : List String) {x : String} (hx : x ∈ pyDedup l) : x ∈ l :=
  pyDedupAux_subset l [] x hx

/-- If no stored hit has the incoming id, `updateBest` appends the hit. -/
theorem updateBest_notMem : ∀ (best : List Hit) (h : Hit),
    (∀ b ∈ best, b.id ≠ h.id) → updateBest h best = best ++ [h] := by
  intro best
  induction best with
  | nil => intro h _; rfl
  | cons b bs ih =>
    intro h hne
    have hb : b.id ≠ h.id := hne b (List.mem_cons_self _ _)
    simp only [updateBest, if_neg hb, List.cons_append]
    rw [ih h (fun x hx => hne x (List.mem_cons_of_mem _ hx))]

/-- If some stored hit has the incoming id, `updateBest` replaces the first
such hit in place exactly when the new box is strictly larger. -/
theorem updateBest_mem_decomp : ∀ (best : List Hit) (h : Hit),
    (∃ b ∈ best, b.id = h.id) →
    ∃ l1 b0 l2, best = l1 ++ b0 :: l2 ∧ b0.id = h.id ∧
      (∀ x ∈ l1, x.id ≠ h.id) ∧
      updateBest h best = l1 ++ (if area b0.box < area h.box then h else b0) :: l2 := by
  intro best
  induction best with
  | nil => intro h hx; simp at hx
  | cons b bs ih =>
    intro h hx
    by_cases hb : b.id = h.id
    · refine ⟨[], b, bs, by simp, hb, by simp, ?_⟩
      simp [updateBest, if_pos hb]
    · have hx2 : ∃ x ∈ bs, x.id = h.id := by
        rcases hx with ⟨x, hxm, hxid⟩
        rcases List.mem_cons.mp hxm with h1 | h1
        · exact absurd (h1 ▸ hxid) hb
        · exact ⟨x, h1, hxid⟩
      obtain ⟨l1, b0, l2, hdec, hb0, hl1, hupd⟩ := ih h hx2
      refine ⟨b :: l1, b0, l2, by rw [hdec]; rfl, hb0, ?_, ?_⟩
      · intro x hxm
        rcases List.mem_cons.mp hxm with h1 | h1
        · exact h1 ▸ hb
        · exact hl1 x h1
      · simp only [updateBest, if_neg hb, hupd, List.cons_append]

/-- One loop iteration preserves the deduplication invariant. -/
theorem dedupInv_step (processed best : List Hit) (h : Hit)
    (hinv : DedupInv processed best) :
    DedupInv (processed ++ [h]) (updateBest h best) := by
  obtain ⟨hnodup, hcover, hmax⟩ := hinv
  by_cases hin : ∃ b ∈ best, b.id = h.id
  · obtain ⟨l1, b0, l2, hbest, hb0id, hl1ne, hupd⟩ := updateBest_mem_decomp best h hin
    rw [hupd]
    have hb0mem : b0 ∈ best := by
      rw [hbest]; exact List.mem_append_right _ (List.mem_cons_self _ _)
    obtain ⟨hb0max, pre0, suf0, hdec0, hstrict0⟩ := hmax b0 hb0mem
    have hcid : (if area b0.box < area h.box then h else b0).id = b0.id := by
      split
      · exact hb0id.symm
      · rfl
    have hnodup2 : ((l1 ++ b0 :: l2).map Hit.id).Nodup := hbest ▸ hnodup
    have hl2ne : ∀ x ∈ l2, x.id ≠ b0.id := by
      intro x hx heq
      simp only [List.map_append, List.map_cons, List.nodup_append,
        List.nodup_cons] at hnodup2
      exact hnodup2.2.1.1 (heq ▸ List.mem_map_of_mem Hit.id hx)
    refine ⟨?_, ?_, ?_⟩
    · simp only [List.map_append, List.map_cons, hcid] at *
      exact hnodup2
    · intro g hg
      rcases List.mem_append.mp hg with hg1 | hg1
      · obtain ⟨b2, hb2m, hb2id⟩ := hcover g hg1
        by_cases hbb : b2 = b0
        · refine ⟨_, List.mem_append_right _ (List.mem_cons_self _ _), ?_⟩
          rw [hcid, ← hbb, hb2id]
        · have : b2 ∈ l1 ++ b0 :: l2 := hbest ▸ hb2m
          rcases List.mem_append.mp this with h1 | h1
          · exact ⟨b2, List.mem_append_left _ h1, hb2id⟩
          · rcases List.mem_cons.mp h1 with h2 | h2
            · exact absurd h2 hbb
            · exact ⟨b2, List.mem_append_right _ (List.mem_cons_of_mem _ h2), hb2id⟩
      · have hgh : g = h := by simpa using hg1
        refine ⟨_, List.mem_append_right _ (List.mem_cons_self _ _), ?_⟩
        rw [hcid, hb0id, hgh]
    · intro b hb
      rcases List.mem_append.mp hb with hb1 | hb1
      · -- b comes from l1, untouched; its id differs from h.id
        have hbmem : b ∈ best := by
          rw [hbest]; exact List.mem_append_left _ hb1
        have hbid : b.id ≠ h.id := hl1ne b hb1
        obtain ⟨hbmax, pre, suf, hdec, hstrict⟩ := hmax b hbmem
        refine ⟨?_, pre, suf ++ [h], ?_, hstrict⟩
        · intro g hg hgid
          rcases List.mem_append.mp hg with hg1 | hg1
          · exact hbmax g hg1 hgid
          · have : g = h := by simpa using hg1
            exact absurd (this ▸ hgid).symm hbid
        · rw [hdec]; simp
      · rcases List.mem_cons.mp hb1 with hb2 | hb2
        · -- b is the stored-or-replaced hit for h.id
          subst hb2
          by_cases hlt : area b0.box < area h.box
          · rw [if_pos hlt]
            refine ⟨?_, processed, [], by simp, ?_⟩
            · intro g hg hgid
              rcases List.mem_append.mp hg with hg1 | hg1
              · have : area g.box ≤ area b0.box :=
                  hb0max g hg1 (by rw [hgid, hb0id])
                exact le_of_lt (lt_of_le_of_lt this hlt)
              · have : g = h := by simpa using hg1
                rw [this]
            · intro g hg hgid
              have : area g.box ≤ area b0.box := hb0max g hg (by rw [hgid, hb0id])
              exact lt_of_le_of_lt this hlt
          · rw [if_neg hlt]
            refine ⟨?_, pre0, suf0 ++ [h], ?_, hstrict0⟩
            · intro g hg hgid
              rcases List.mem_append.mp hg with hg1 | hg1
              · exact hb0max g hg1 hgid
              · have hgh : g = h := by simpa using hg1
                rw [hgh]
                exact le_of_not_lt hlt
            · rw [hdec0]; simp
        · -- b comes from l2, untouched
          have hbmem : b ∈ best := by
            rw [hbest]
            exact List.mem_append_right _ (List.mem_cons_of_mem _ hb2)
          have hbid : b.id ≠ h.id := by
            rw [← hb0id]; exact hl2ne b hb2
          obtain ⟨hbmax, pre, suf, hdec, hstrict⟩ := hmax b hbmem
          refine ⟨?_, pre, suf ++ [h], ?_, hstrict⟩
          · intro g hg hgid
            rcases List.mem_append.mp hg with hg1 | hg1
            · exact hbmax g hg1 hgid
            · have : g = h := by simpa using hg1
              exact absurd (this ▸ hgid).symm hbid
          · rw [hdec]; simp
  · push_neg at hin
    rw [updateBest_notMem best h (fun b hb => hin b hb)]
    refine ⟨?_, ?_, ?_⟩
    · simp only [List.map_append, List.map_cons, List.map_nil, List.nodup_append,
        List.nodup_cons, List.nodup_nil]
      refine ⟨hnodup, ⟨by simp, trivial⟩, ?_⟩
      intro x hx
      obtain ⟨b, hb, hbid⟩ := List.mem_map.mp hx
      simp only [List.mem_singleton]
      intro hxe
      exact hin b hb (by rw [hxe] at hbid; exact hbid)
    · intro g hg
      rcases List.mem_append.mp hg with hg1 | hg1
      · obtain ⟨b2, hb2m, hb2id⟩ := hcover g hg1
        exact ⟨b2, List.mem_append_left _ hb2m, hb2id⟩
      · have : g = h := by simpa using hg1
        exact ⟨h, List.mem_append_right _ (List.mem_cons_self _ _), by rw [this]⟩
    · intro b hb
      rcases List.mem_append.mp hb with hb1 | hb1
      · have hbid : b.id ≠ h.id := hin b hb1
        obtain ⟨hbmax, pre, suf, hdec, hstrict⟩ := hmax b hb1
        refine ⟨?_, pre, suf ++ [h], ?_, hstrict⟩
        · intro g hg hgid
          rcases List.mem_append.mp hg with hg1 | hg1
          · exact hbmax g hg1 hgid
          · have : g = h := by simpa using hg1
            exact absurd (this ▸ hgid).symm hbid
        · rw [hdec]; simp
      · have hbh : b = h := by simpa using hb1
        subst hbh
        refine ⟨?_, processed, [], by simp, ?_⟩
        · intro g hg hgid
          rcases List.mem_append.mp hg with hg1 | hg1
          · obtain ⟨b2, hb2m, hb2id⟩ := hcover g hg1
            exact absurd (by rw [hb2id, hgid]) (hin b2 hb2m)
          · have : g = b := by simpa using hg1
            rw [this]
        · intro g hg hgid
          obtain ⟨b2, hb2m, hb2id⟩ := hcover g hg
          exact absurd (by rw [hb2id, hgid]) (hin b2 hb2m)

/-- The whole loop preserves the deduplication invariant. -/
theorem dedupInv_fold : ∀ (hits processed best : List Hit),
    DedupInv processed best →
    DedupInv (processed ++ hits) (hits.foldl (fun b h => updateBest h b) best) := by
  intro hits
  induction hits with
  | nil => intro processed best hinv; simpa using hinv
  | cons h hs ih =>
    intro processed best hinv
    have step := dedupInv_step processed best h hinv
    have := ih (processed ++ [h]) (updateBest h best) step
    simpa using this

/-- The deduplication invariant holds of `dedupHits`' output against its
input. -/
theorem dedupHits_inv (hits : List Hit) : DedupInv hits (dedupHits hits) := by
  have h0 : DedupInv [] [] := by
    refine ⟨List.nodup_nil, ?_, ?_⟩
    · intro g hg; simp at hg
    · intro b hb; simp at hb
  have := dedupInv_fold hits [] [] h0
  simpa [dedupHits] using this

/-- C5 counterexample: on the degenerate input box (5,0,3,0) with a 10×10
image, `clamp` returns [5,0,3,0], whose x-components violate x1 ≤ x2 — so the
claimed property does not hold for all integer inputs. -/
theorem clamp_claim_counterexample :
    clamp 5 0 3 0 10 10 = [5, 0, 3, 0] ∧ ¬ specClampOK (clamp 5 0 3 0 10 10) 10 10 :=
  ⟨rfl, by decide⟩

/-- C5 (amended): for nonnegative image dimensions, `clamp` yields
0 ≤ x1 ≤ x2 ≤ W and 0 ≤ y1 ≤ y2 ≤ H whenever the input box is
non-degenerate and overlaps the image region (x1 ≤ x2, y1 ≤ y2, x2 ≥ 0,
y2 ≥ 0, x1 ≤ W, y1 ≤ H); `clamp` is a total function, so it never raises. -/
theorem clamp_in_bounds (x1 y1 x2 y2 W H : Int) (hW : 0 ≤ W) (hH : 0 ≤ H)
    (hx : x1 ≤ x2) (hy : y1 ≤ y2) (hx2 : 0 ≤ x2) (hy2 : 0 ≤ y2)
    (hxW : x1 ≤ W) (hyH : y1 ≤ H) :
    specClampOK (clamp x1 y1 x2 y2 W H) W H := by
  show 0 ≤ max 0 x1 ∧ max 0 x1 ≤ min W x2 ∧ min W x2 ≤ W ∧
    0 ≤ max 0 y1 ∧ max 0 y1 ≤ min H y2 ∧ min H y2 ≤ H
  omega

/-- Witness: `clamp_in_bounds` at the concrete box (-5,-3,7,20) in a 10×10
image. -/
theorem clamp_in_bounds_witness :
    specClampOK (clamp (-5) (-3) 7 20 10 10) 10 10 :=
  clamp_in_bounds (-5) (-3) 7 20 10 10 (by decide) (by decide) (by decide)
    (by decide) (by decide) (by decide) (by decide) (by decide)

/-- C9: when the locator finds no hits, `run` short-circuits to the
ResultSet with an empty component list and the `no_numerals_found` note, and
its output does not depend on the classifier oracle at all (no
classification call can influence — or abort — the run). -/
theorem no_hits_short_circuit (path claims : String) (vp : Option JVal)
    (W H : Int) (dets : List Det) (tau : Rat) (oracle : Hit → OracleOutcome)
    (hempty : ocr_numerals W H dets = []) :
    run path claims vp W H dets tau oracle =
      .ok ⟨pyBasename path, [], none, some "no_numerals_found"⟩ ∧
    ∀ oracle2, run path claims vp W H dets tau oracle2 =
      run path claims vp W H dets tau oracle := by
  constructor
  · simp [run, hempty]
  · intro oracle2
    simp [run, hempty]

/-- Witness: `no_hits_short_circuit` on a detection list whose only token
"AB" is not a numeral, with the oracle-independence conjunct instantiated at
a second, different oracle. -/
theorem no_hits_short_circuit_witness :
    run "p/q.png" "t" none 50 50 c9dets (mkRat 1 2) c1oracle =
      .ok ⟨"q.png", [], none, some "no_numerals_found"⟩ ∧
    run "p/q.png" "t" none 50 50 c9dets (mkRat 1 2) c3oracle =
      run "p/q.png" "t" none 50 50 c9dets (mkRat 1 2) c1oracle :=
  ⟨(no_hits_short_circuit "p/q.png" "t" none 50 50 c9dets (mkRat 1 2) c1oracle rfl).1,
   (no_hits_short_circuit "p/q.png" "t" none 50 50 c9dets (mkRat 1 2) c1oracle rfl).2 c3oracle⟩

/-- C10: the empty-hits ResultSet carries exactly figure id, empty
components and the note — its vocabulary field is absent (`none`) even
though the vocabulary was built — while every ResultSet produced from a
non-empty hit list carries the vocabulary used and no note. -/
theorem empty_result_omits_vocab (path claims : String) (vp : Option JVal)
    (W H : Int) (dets : List Det) (tau : Rat) (oracle : Hit → OracleOutcome) :
    (ocr_numerals W H dets = [] →
      run path claims vp W H dets tau oracle =
        .ok ⟨pyBasename path, [], none, some "no_numerals_found"⟩) ∧
    (∀ rs, run path claims vp W H dets tau oracle = .ok rs →
      ocr_numerals W H dets ≠ [] →
      rs.vocab_used = some (extract_vocab_with_gpt claims vp) ∧ rs.note = none) := by
  constructor
  · intro hempty
    simp [run, hempty]
  · intro rs hrun hne
    unfold run at hrun
    have hni : (ocr_numerals W H dets).isEmpty = false := by
      cases hcase : ocr_numerals W H dets with
      | nil => exact absurd hcase hne
      | cons a l => rfl
    simp only [hni, Bool.false_eq_true, if_false] at hrun
    cases hm : mapExcept (processHit tau oracle) (sortHits (ocr_numerals W H dets)) with
    | error e => rw [hm] at hrun; cases hrun
    | ok comps =>
      rw [hm] at hrun
      cases hrun
      exact ⟨rfl, rfl⟩

/-- Witness: `empty_result_omits_vocab`, first conjunct at the no-hit
detections `c9dets`, second at the single-numeral detections `c10dets`. -/
theorem empty_result_omits_vocab_witness :
    run "f.png" "" none 50 50 c9dets (mkRat 1 2) c4oracle =
      .ok ⟨"f.png", [], none, some "no_numerals_found"⟩ ∧
    (⟨"f.png",
      [.jobj [("id", .jstr "8"), ("name", .jstr "terminal"),
        ("confidence", .jnum (mkRat 9 10)), ("evidence", .jstr "e"),
        ("bbox_xyxy", boxJ ⟨0, 0, 4, 4⟩)]],
      some FALLBACK_EMPTY, none⟩ : ResultSet).vocab_used = some FALLBACK_EMPTY ∧
    (⟨"f.png",
      [.jobj [("id", .jstr "8"), ("name", .jstr "terminal"),
        ("confidence", .jnum (mkRat 9 10)), ("evidence", .jstr "e"),
        ("bbox_xyxy", boxJ ⟨0, 0, 4, 4⟩)]],
      some FALLBACK_EMPTY, none⟩ : ResultSet).note = none :=
  ⟨(empty_result_omits_vocab "f.png" "" none 50 50 c9dets (mkRat 1 2) c4oracle).1 rfl,
   (empty_result_omits_vocab "f.png" "" none 50 50 c10dets (mkRat 1 2) c4oracle).2
     _ rfl (by decide)⟩

/-- C1: if the oracle's reply for a numeral is a JSON object whose
`confidence` is a number strictly below the threshold, the assembled record's
name is forced to "unknown" whatever name the oracle proposed, and the hit's
bounding box is attached under `bbox_xyxy`.  (`run` builds its component list
from exactly these per-numeral records.) -/
theorem confidence_gate (tau c : Rat) (fs : List (String × JVal)) (h : Hit)
    (oracle : Hit → OracleOutcome)
    (hor : oracle h = .returns (.ok (.jobj fs)))
    (hc : objGet fs "confidence" (.jnum 0) = .jnum c)
    (hlt : c < tau) :
    (processHit tau oracle h).map (fun v => jGet v "name" .jnull) =
      .ok (.jstr "unknown") ∧
    (processHit tau oracle h).map (fun v => jGet v "bbox_xyxy" .jnull) =
      .ok (boxJ h.box) := by
  have hconf : objGet (objSet fs "bbox_xyxy" (boxJ h.box)) "confidence" (.jnum 0) = .jnum c := by
    rw [objGet_objSet_ne fs (boxJ h.box) (.jnum 0) (by decide)]
    exact hc
  simp only [processHit, ask_vlm_for_name, hor, hconf, pyFloat, if_pos hlt]
  constructor
  · simp only [Except.map, jGet, objGet_objSet_self]
  · simp only [Except.map, jGet]
    rw [objGet_objSet_ne _ _ _ (by decide), objGet_objSet_self]

/-- Witness: `confidence_gate` with threshold 1/2 and an oracle proposing
"die pad" at confidence 3/10: the record's name is "unknown" and the box
(1,2,3,4) is attached. -/
theorem confidence_gate_witness :
    (processHit (mkRat 1 2) c1oracle c1hit).map (fun v => jGet v "name" .jnull) =
      .ok (.jstr "unknown") ∧
    (processHit (mkRat 1 2) c1oracle c1hit).map (fun v => jGet v "bbox_xyxy" .jnull) =
      .ok (boxJ ⟨1, 2, 3, 4⟩) :=
  confidence_gate (mkRat 1 2) (mkRat 3 10) c1fs c1hit c1oracle rfl rfl (by decide)

/-- C2 counterexample: the oracle's reply for numeral "1" is parseable JSON
that violates the schema (`confidence` is JSON null), so
`float(ans.get("confidence", 0.0))` raises inside the per-numeral loop and
the whole run aborts with a `TypeError` — no ResultSet is produced and the
well-behaved numeral "2" is never recorded, contradicting the claimed
isolation of schema violations. -/
theorem schema_violation_aborts_run :
    run "f.png" "" none 100 100 c2dets (mkRat 1 2) c2oracle = .error .typeError := rfl

/-- C2 (amended): only a reply that fails JSON parsing degrades to the
dedicated record {name: "unknown", confidence: 0.0, evidence: "parse_error"}
(with the hit's box attached); the per-numeral step then returns normally,
so such a numeral never aborts the run.  A reply that parses but violates
the schema instead raises out of the per-numeral step. -/
theorem parse_error_record (tau : Rat) (oracle : Hit → OracleOutcome) (h : Hit)
    (hpe : oracle h = .returns (.error ())) :
    processHit tau oracle h =
      .ok (.jobj [("id", .jstr h.id), ("name", .jstr "unknown"),
                  ("confidence", .jnum 0), ("evidence", .jstr "parse_error"),
                  ("bbox_xyxy", boxJ h.box)]) := by
  unfold processHit
  rw [hpe]
  have hred : pyFloat (objGet (objSet
      [("id", JVal.jstr h.id), ("name", JVal.jstr "unknown"),
       ("confidence", JVal.jnum 0), ("evidence", JVal.jstr "parse_error")]
      "bbox_xyxy" (boxJ h.box)) "confidence" (JVal.jnum 0)) = .ok 0 := rfl
  simp only [ask_vlm_for_name, hred]
  by_cases h0 : (0 : Rat) < tau
  · rw [if_pos h0]; rfl
  · rw [if_neg h0]; rfl

/-- Witness: `parse_error_record` for an oracle whose reply never parses,
at numeral "7" with box (1,2,3,4). -/
theorem parse_error_record_witness :
    processHit (mkRat 1 2) c2woracle c1hit =
      .ok (.jobj [("id", .jstr "7"), ("name", .jstr "unknown"),
                  ("confidence", .jnum 0), ("evidence", .jstr "parse_error"),
                  ("bbox_xyxy", boxJ ⟨1, 2, 3, 4⟩)]) :=
  parse_error_record (mkRat 1 2) c2woracle c1hit rfl

/-- C3 counterexample: with threshold 1/2, an oracle reply naming "widget"
(outside the run's vocabulary, here the built-in fallback list) at
confidence 9/10 passes the gate unchecked, so the final ResultSet holds a
record whose name is neither "unknown" nor a vocabulary member. -/
theorem out_of_vocab_name_reaches_result :
    run "f.png" "" none 100 100 c3dets (mkRat 1 2) c3oracle =
      .ok ⟨"f.png", [c3rec], some FALLBACK_EMPTY, none⟩ ∧
    jGet c3rec "name" .jnull = .jstr "widget" ∧
    "widget" ∉ FALLBACK_EMPTY ∧ ("widget" : String) ≠ "unknown" :=
  ⟨rfl, rfl, by decide, by decide⟩

/-- C3 (amended): when the oracle reply is an object with a readable
confidence, the record's final name is "unknown" if the confidence is below
the threshold and otherwise is exactly the name value the oracle returned —
the code performs no vocabulary-membership check, so the claimed invariant
holds only when the oracle itself returns a vocabulary member or
"unknown". -/
theorem gate_or_oracle_name (tau c : Rat) (fs : List (String × JVal)) (h : Hit)
    (oracle : Hit → OracleOutcome)
    (hor : oracle h = .returns (.ok (.jobj fs)))
    (hc : pyFloat (objGet fs "confidence" (.jnum 0)) = .ok c) :
    (processHit tau oracle h).map (fun v => jGet v "name" .jnull) =
      .ok (if c < tau then .jstr "unknown" else objGet fs "name" .jnull) := by
  have hconf : objGet (objSet fs "bbox_xyxy" (boxJ h.box)) "confidence" (.jnum 0) =
      objGet fs "confidence" (.jnum 0) :=
    objGet_objSet_ne fs (boxJ h.box) (.jnum 0) (by decide)
  simp only [processHit, ask_vlm_for_name, hor, hconf, hc]
  by_cases hlt : c < tau
  · rw [if_pos hlt, if_pos hlt]
    simp only [Except.map, jGet, objGet_objSet_self]
  · rw [if_neg hlt, if_neg hlt]
    simp only [Except.map, jGet]
    rw [objGet_objSet_ne _ _ _ (by decide)]

/-- Witness: `gate_or_oracle_name` at confidence 9/10 against threshold 1/2:
the gate does not fire and the out-of-vocabulary name "widget" survives into
the record. -/
theorem gate_or_oracle_name_witness :
    (processHit (mkRat 1 2) c3oracle ⟨"5", ⟨20, 20, 26, 26⟩⟩).map
        (fun v => jGet v "name" .jnull) = .ok (.jstr "widget") :=
  gate_or_oracle_name (mkRat 1 2) (mkRat 9 10)
    [("id", .jstr "5"), ("name", .jstr "widget"),
     ("confidence", .jnum (mkRat 9 10)), ("evidence", .jstr "e")]
    ⟨"5", ⟨20, 20, 26, 26⟩⟩ c3oracle rfl rfl

/-- C8 counterexample: the oracle call for numeral "1" raises (timeout); the
exception is not caught anywhere, so the whole run aborts and the
well-behaved numeral "2" is lost — the failure is not isolated and nothing
is recorded as "unknown". -/
theorem raising_oracle_aborts_run :
    run "f.png" "" none 100 100 c2dets (mkRat 1 2) c8oracle =
      .error .oracleFailure := rfl

/-- C8 (amended): the code wraps no timeout around the oracle call and
catches only JSON-parse failures, so an oracle call that raises propagates
out of the per-numeral step, and out of the whole run: with such a numeral
among the hits the run produces no ResultSet at all. -/
theorem oracle_raise_propagates (tau : Rat) (oracle : Hit → OracleOutcome) (h : Hit)
    (hra : oracle h = .raises) :
    processHit tau oracle h = .error .oracleFailure ∧
    ∀ path claims vp W H dets, ocr_numerals W H dets = [h] →
      run path claims vp W H dets tau oracle = .error .oracleFailure := by
  have hp : processHit tau oracle h = .error .oracleFailure := by
    simp [processHit, ask_vlm_for_name, hra]
  refine ⟨hp, ?_⟩
  intro path claims vp W H dets hone
  simp [run, hone, sortHits, List.insertionSort, List.orderedInsert, mapExcept, hp]

/-- Witness: `oracle_raise_propagates` for an always-raising oracle at
numeral "3"; the single-hit run for detections `c8wdets` aborts. -/
theorem oracle_raise_propagates_witness :
    processHit (mkRat 1 2) c8woracle ⟨"3", ⟨0, 0, 4, 4⟩⟩ = .error .oracleFailure ∧
    run "f.png" "" none 100 100 c8wdets (mkRat 1 2) c8woracle =
      .error .oracleFailure :=
  ⟨(oracle_raise_propagates (mkRat 1 2) c8woracle ⟨"3", ⟨0, 0, 4, 4⟩⟩ rfl).1,
   (oracle_raise_propagates (mkRat 1 2) c8woracle ⟨"3", ⟨0, 0, 4, 4⟩⟩ rfl).2
     "f.png" "" none 100 100 c8wdets rfl⟩

/-- C4 counterexample: with numerals "102" and "2" present, the final
component list is ordered ["102", "2"] — `sorted(hits, key=z.id)` compares
identifier strings lexicographically — whereas the claimed numeric order
requires "2" before "102" (`specAscending` rejects the produced order and
accepts the claimed one). -/
theorem string_sort_not_numeric :
    (run "figs/f.png" "" none 100 100 c4dets (mkRat 1 2) c4oracle).map
        (fun rs => rs.components.map (fun v => jGet v "id" .jnull)) =
      .ok [.jstr "102", .jstr "2"] ∧
    specAscending ["102", "2"] = false ∧ specAscending ["2", "102"] = true :=
  ⟨rfl, by decide, by decide⟩

/-- C4 (amended): the component list of every successful run is the
per-numeral records of the located hits taken in ascending order of the
identifier *string* under Python's lexicographic code-point order (so "102"
precedes "2", while "3" still precedes "3c"): the processed sequence is a
permutation of the located hits, is sorted by `pyStrLe` on identifiers, and
maps exactly onto the final component list. -/
theorem components_sorted_by_id_string (path claims : String) (vp : Option JVal)
    (W H : Int) (dets : List Det) (tau : Rat) (oracle : Hit → OracleOutcome)
    (rs : ResultSet)
    (hrun : run path claims vp W H dets tau oracle = .ok rs) :
    (sortHits (ocr_numerals W H dets)).Perm (ocr_numerals W H dets) ∧
    List.Pairwise (fun a b : Hit => pyStrLe a.id b.id = true)
      (sortHits (ocr_numerals W H dets)) ∧
    mapExcept (processHit tau oracle) (sortHits (ocr_numerals W H dets)) =
      .ok rs.components := by
  refine ⟨List.perm_insertionSort _ _, ?_, ?_⟩
  · exact @List.sorted_insertionSort Hit (fun a b => pyStrLe a.id b.id = true) _
      ⟨fun a b => pyStrLe_total a.id b.id⟩
      ⟨fun a b c hab hbc => pyStrLe_trans hab hbc⟩ _
  · unfold run at hrun
    by_cases he : (ocr_numerals W H dets).isEmpty
    · have hemp : ocr_numerals W H dets = [] := by
        cases hcase : ocr_numerals W H dets with
        | nil => rfl
        | cons a l => rw [hcase] at he; cases he
      simp only [he, if_true] at hrun
      cases hrun
      rw [hemp]
      rfl
    · simp only [Bool.not_eq_true] at he
      simp only [he, Bool.false_eq_true, if_false] at hrun
      cases hm : mapExcept (processHit tau oracle) (sortHits (ocr_numerals W H dets)) with
      | error e => rw [hm] at hrun; cases hrun
      | ok comps => rw [hm] at hrun; cases hrun; rfl

/-- Witness: `components_sorted_by_id_string` on the "102"/"2" run: the
sorted hit sequence, its pairwise order, and its record list equal the run's
component list. -/
theorem components_sorted_by_id_string_witness :
    (sortHits (ocr_numerals 100 100 c4dets)).Perm (ocr_numerals 100 100 c4dets) ∧
    List.Pairwise (fun a b : Hit => pyStrLe a.id b.id = true)
      (sortHits (ocr_numerals 100 100 c4dets)) ∧
    mapExcept (processHit (mkRat 1 2) c4oracle) (sortHits (ocr_numerals 100 100 c4dets)) =
      .ok [.jobj [("id", .jstr "102"), ("name", .jstr "terminal"),
             ("confidence", .jnum (mkRat 9 10)), ("evidence", .jstr "e"),
             ("bbox_xyxy", boxJ ⟨10, 10, 18, 16⟩)],
           .jobj [("id", .jstr "2"), ("name", .jstr "terminal"),
             ("confidence", .jnum (mkRat 9 10)), ("evidence", .jstr "e"),
             ("bbox_xyxy", boxJ ⟨40, 40, 45, 46⟩)]] :=
  components_sorted_by_id_string "figs/f.png" "" none 100 100 c4dets (mkRat 1 2)
    c4oracle
    ⟨"f.png",
     [.jobj [("id", .jstr "102"), ("name", .jstr "terminal"),
        ("confidence", .jnum (mkRat 9 10)), ("evidence", .jstr "e"),
        ("bbox_xyxy", boxJ ⟨10, 10, 18, 16⟩)],
      .jobj [("id", .jstr "2"), ("name", .jstr "terminal"),
        ("confidence", .jnum (mkRat 9 10)), ("evidence", .jstr "e"),
        ("bbox_xyxy", boxJ ⟨40, 40, 45, 46⟩)]],
     some FALLBACK_EMPTY, none⟩ rfl

/-- C6: the locator keeps at most one hit per identifier, and each kept hit
is drawn from the pre-deduplication hits, has maximal area among the hits
sharing its identifier, and is the first-seen hit attaining that area (every
earlier same-identifier hit has strictly smaller area). -/
theorem locator_keeps_first_largest (W H : Int) (dets : List Det) :
    ((ocr_numerals W H dets).map Hit.id).Nodup ∧
    ∀ b ∈ ocr_numerals W H dets,
      (∀ g ∈ rawHits W H dets, g.id = b.id → area g.box ≤ area b.box) ∧
      ∃ pre suf, rawHits W H dets = pre ++ b :: suf ∧
        ∀ g ∈ pre, g.id = b.id → area g.box < area b.box := by
  obtain ⟨hnodup, _, hmax⟩ := dedupHits_inv (rawHits W H dets)
  exact ⟨hnodup, fun b hb => hmax b hb⟩

/-- Witness: `locator_keeps_first_largest` on two boxes for identifier "12"
with areas 50 and 120: the kept hit is the area-120 box, it dominates both
raw hits, and the earlier raw hit is strictly smaller. -/
theorem locator_keeps_first_largest_witness :
    (∀ g ∈ rawHits 100 100 c6dets, g.id = (⟨"12", ⟨10, 10, 30, 16⟩⟩ : Hit).id →
      area g.box ≤ area (⟨"12", ⟨10, 10, 30, 16⟩⟩ : Hit).box) ∧
    ∃ pre suf, rawHits 100 100 c6dets = pre ++ (⟨"12", ⟨10, 10, 30, 16⟩⟩ : Hit) :: suf ∧
      ∀ g ∈ pre, g.id = (⟨"12", ⟨10, 10, 30, 16⟩⟩ : Hit).id →
        area g.box < area (⟨"12", ⟨10, 10, 30, 16⟩⟩ : Hit).box :=
  (locator_keeps_first_largest 100 100 c6dets).2 ⟨"12", ⟨10, 10, 30, 16⟩⟩ (by decide)

/-- C7: for any non-empty claims text and any reply of the vocabulary
oracle — parse failure, wrong shape, or a well-formed list — the vocabulary
returned by the (total, hence never-raising) builder has at most 60 entries,
no duplicates, and every entry has length in [1, 64] and no uppercase
letter. -/
theorem vocab_invariant (claims : String) (parsed : Option JVal)
    (hne : pyStrip claims ≠ "") :
    (extract_vocab_with_gpt claims parsed).length ≤ 60 ∧
    (extract_vocab_with_gpt claims parsed).Nodup ∧
    ∀ s ∈ extract_vocab_with_gpt claims parsed,
      (1 ≤ s.length ∧ s.length ≤ 64) ∧ pyNoUpper s = true := by
  unfold extract_vocab_with_gpt
  rw [if_neg hne]
  cases parsed with
  | none => exact ⟨by decide, by decide, by decide⟩
  | some data =>
    dsimp only
    cases hg : getVocabValue data with
    | error e =>
      dsimp only
      exact ⟨by decide, by decide, by decide⟩
    | ok v =>
      dsimp only
      cases hi : pyIterStrs v with
      | error e =>
        dsimp only
        exact ⟨by decide, by decide, by decide⟩
      | ok ss =>
        dsimp only
        refine ⟨List.length_take_le _ _, ?_, ?_⟩
        · apply List.Nodup.sublist (List.take_sublist _ _)
          exact (List.perm_insertionSort _ _).symm.nodup (pyDedup_nodup _)
        · intro s hs
          have hs2 : s ∈ pySortStrs (pyDedup
              ((ss.filter vocabKeep).map (fun t => pyLower (pyStrip t)))) :=
            List.mem_of_mem_take hs
          have hs3 : s ∈ pyDedup
              ((ss.filter vocabKeep).map (fun t => pyLower (pyStrip t))) :=
            ((List.perm_insertionSort _ _).mem_iff).mp hs2
          have hs4 := pyDedup_subset _ hs3
          obtain ⟨t, ht, hts⟩ := List.mem_map.mp hs4
          have htk : vocabKeep t = true := (List.mem_filter.mp ht).2
          simp only [vocabKeep, Bool.and_eq_true, decide_eq_true_eq] at htk
          subst hts
          refine ⟨⟨?_, ?_⟩, pyNoUpper_pyLower _⟩
          · rw [pyLower_length]; exact htk.1
          · rw [pyLower_length]; exact htk.2

/-- Witness: `vocab_invariant` on the reply `c7parsed` (mixed case, padding,
a duplicate): the builder output is the two-entry vocabulary
["die pad", "widget"], which satisfies all three parts. -/
theorem vocab_invariant_witness :
    (extract_vocab_with_gpt "abc" c7parsed).length ≤ 60 ∧
    (extract_vocab_with_gpt "abc" c7parsed).Nodup ∧
    ∀ s ∈ extract_vocab_with_gpt "abc" c7parsed,
      (1 ≤ s.length ∧ s.length ≤ 64) ∧ pyNoUpper s = true :=
  vocab_invariant "abc" c7parsed (by decide)
